import Mathlib

/-!
Verification of the Solana hello-world counter program
(`src/program-rust/src/instruction.rs` and `src/program-rust/src/lib.rs`).

Bytes are modelled as `Nat` (a genuine byte is `< 256`); public keys
(`Pubkey`) are modelled as `Nat` with decidable equality.  A Rust slice
operation that can panic is modelled with `Option`: `none` is a panic.
`u32` arithmetic is `Nat` arithmetic reduced modulo `2 ^ 32` where the
source wraps (the program is deployed as a release build, where
`+= 1` / `-= 1` on `u32` use two's-complement wrapping).
-/

namespace HelloWorld

/-- The subset of `solana_program::program_error::ProgramError` values the
program can produce: `InvalidInstructionData` from `unpack`,
`IncorrectProgramId` from the ownership check, `NotEnoughAccountKeys` from
`next_account_info`, and `BorshIoError` from borsh (de)serialization. -/
inductive ProgramError where
  | InvalidInstructionData
  | IncorrectProgramId
  | NotEnoughAccountKeys
  | BorshIoError
  deriving DecidableEq, Repr

/-- `enum HelloInstruction { Increment, Decrement, Set(u32) }` from
`instruction.rs`. -/
inductive HelloInstruction where
  | Increment
  | Decrement
  | Set (value : Nat)
  deriving DecidableEq, Repr

/-- `u32::from_le_bytes([b0, b1, b2, b3])`: little-endian interpretation of
four bytes. -/
def u32FromLeBytes (b0 b1 b2 b3 : Nat) : Nat :=
  b0 + b1 * 256 + b2 * 65536 + b3 * 16777216

/-- `rest[..4].try_into() : Result<[u8; 4], _>` — converting a slice to a
fixed array of four bytes, which succeeds exactly when the slice has
length four. -/
def tryIntoArray4 (xs : List Nat) : Option (Nat × Nat × Nat × Nat) :=
  match xs with
  | [b0, b1, b2, b3] => some (b0, b1, b2, b3)
  | _ => none

/-- The slice expression `xs[..n]`, which panics (modelled as `none`) when
`n` exceeds the slice length. -/
def sliceTo (xs : List Nat) (n : Nat) : Option (List Nat) :=
  if n ≤ xs.length then some (xs.take n) else none

/-- `HelloInstruction::unpack` from `instruction.rs`.  The outer `Option`
models panic-freedom (`none` = a panic inside the function; the only
candidate is the `rest[..4]` slice).  `input.split_first()` yields the tag
and the rest; tag `0` is `Increment`, tag `1` is `Decrement`, tag `2`
requires `rest.len() == 4` and reads a little-endian `u32`; anything else
is `InvalidInstructionData`. -/
def unpack (input : List Nat) : Option (Except ProgramError HelloInstruction) :=
  match input with
  | [] => some (Except.error ProgramError.InvalidInstructionData)
  | tag :: rest =>
    match tag with
    | 0 => some (Except.ok HelloInstruction.Increment)
    | 1 => some (Except.ok HelloInstruction.Decrement)
    | 2 =>
      if rest.length ≠ 4 then
        some (Except.error ProgramError.InvalidInstructionData)
      else
        match sliceTo rest 4 with
        | none => none
        | some sl =>
          match tryIntoArray4 sl with
          | some (b0, b1, b2, b3) =>
            some (Except.ok (HelloInstruction.Set (u32FromLeBytes b0 b1 b2 b3)))
          | none => some (Except.error ProgramError.InvalidInstructionData)
    | _ => some (Except.error ProgramError.InvalidInstructionData)

/-- The slice of `solana_program::account_info::AccountInfo` the program
reads: the owner pubkey and the account data bytes. -/
structure AccountInfo where
  owner : Nat
  data : List Nat
  deriving DecidableEq, Repr

/-- `GreetingAccount::try_from_slice` (borsh): a `struct { counter: u32 }`
deserializes from exactly four little-endian bytes; any other length is an
error (borsh rejects both truncated input and leftover bytes). -/
def tryFromSlice (data : List Nat) : Except ProgramError Nat :=
  match data with
  | [b0, b1, b2, b3] => Except.ok (u32FromLeBytes b0 b1 b2 b3)
  | _ => Except.error ProgramError.BorshIoError

/-- The four little-endian bytes of a `u32` value. -/
def u32ToLeBytes (v : Nat) : List Nat :=
  [v % 256, v / 256 % 256, v / 65536 % 256, v / 16777216 % 256]

/-- `greeting_account.serialize(&mut &mut account.data.borrow_mut()[..])`:
borsh writes the four little-endian counter bytes at the front of the
account buffer; a buffer shorter than four bytes cannot absorb the write
and errors. -/
def serializeInto (v : Nat) (data : List Nat) : Except ProgramError (List Nat) :=
  if 4 ≤ data.length then Except.ok (u32ToLeBytes v ++ data.drop 4)
  else Except.error ProgramError.BorshIoError

/-- The `match instruction` body of `process_instruction` in `lib.rs`:
`Increment` is wrapping `counter += 1`, `Decrement` is wrapping
`counter -= 1`, `Set(value)` is `counter = value`. -/
def applyInstruction (counter : Nat) (i : HelloInstruction) : Nat :=
  match i with
  | HelloInstruction.Increment => (counter + 1) % 4294967296
  | HelloInstruction.Decrement => (counter + 4294967295) % 4294967296
  | HelloInstruction.Set value => value

/-- `process_instruction` from `lib.rs`.  Returns `none` on a panic
(propagated from `unpack`; there are no other panic sites), otherwise the
`ProgramResult` together with the post-invocation account list (the data
bytes of the first account are the only thing the program may mutate).
Order of the source: `unpack`, `next_account_info`, the owner check,
`try_from_slice`, the instruction match, `serialize`. -/
def process_instruction (program_id : Nat) (accounts : List AccountInfo)
    (instruction_data : List Nat) :
    Option (Except ProgramError Unit × List AccountInfo) :=
  match unpack instruction_data with
  | none => none
  | some (Except.error e) => some (Except.error e, accounts)
  | some (Except.ok instruction) =>
    match accounts with
    | [] => some (Except.error ProgramError.NotEnoughAccountKeys, accounts)
    | account :: restAccounts =>
      if account.owner ≠ program_id then
        some (Except.error ProgramError.IncorrectProgramId, account :: restAccounts)
      else
        match tryFromSlice account.data with
        | Except.error e => some (Except.error e, account :: restAccounts)
        | Except.ok counter =>
          let newCounter := applyInstruction counter instruction
          match serializeInto newCounter account.data with
          | Except.error e => some (Except.error e, account :: restAccounts)
          | Except.ok newData =>
            some (Except.ok (), { account with data := newData } :: restAccounts)

/-- C1: for every counter value, Increment yields old + 1 modulo 2^32 and
Decrement yields old - 1 modulo 2^32 (stated over the integers, where the
Euclidean remainder makes the wraparound explicit); in particular
Increment at 0xFFFFFFFF gives 0 and Decrement at 0 gives 0xFFFFFFFF —
overflow and underflow wrap rather than signaling an error. -/
theorem increment_decrement_wrap (c : Nat) (h : c < 4294967296) :
    (applyInstruction c HelloInstruction.Increment : Int) =
      ((c : Int) + 1) % 4294967296 ∧
    (applyInstruction c HelloInstruction.Decrement : Int) =
      ((c : Int) - 1) % 4294967296 ∧
    applyInstruction 4294967295 HelloInstruction.Increment = 0 ∧
    applyInstruction 0 HelloInstruction.Decrement = 4294967295 := by
  refine ⟨?_, ?_, by decide, by decide⟩
  · simp only [applyInstruction]
    push_cast
    omega
  · simp only [applyInstruction]
    push_cast
    omega

/-- Witness for C1 at the concrete counter value 5. -/
theorem increment_decrement_wrap_witness :
    (applyInstruction 5 HelloInstruction.Increment : Int) =
      ((5 : Int) + 1) % 4294967296 ∧
    (applyInstruction 5 HelloInstruction.Decrement : Int) =
      ((5 : Int) - 1) % 4294967296 ∧
    applyInstruction 4294967295 HelloInstruction.Increment = 0 ∧
    applyInstruction 0 HelloInstruction.Decrement = 4294967295 :=
  increment_decrement_wrap 5 (by decide)

/-- C2: when the instruction bytes decode and the first account's owner
differs from the invoking program id, `process_instruction` returns the
incorrect-owner error (`IncorrectProgramId`, the spec's `NotAuthorized`)
and the account list — hence every account's stored bytes — is exactly
the pre-invocation one: no partial mutation. -/
theorem owner_mismatch_rejected (pid : Nat) (account : AccountInfo)
    (rest : List AccountInfo) (instruction_data : List Nat)
    (i : HelloInstruction)
    (hdec : unpack instruction_data = some (Except.ok i))
    (hown : account.owner ≠ pid) :
    process_instruction pid (account :: rest) instruction_data =
      some (Except.error ProgramError.IncorrectProgramId, account :: rest) := by
  simp [process_instruction, hdec, hown]

/-- Witness for C2: owner 1, program id 0, Increment instruction. -/
theorem owner_mismatch_rejected_witness :
    process_instruction 0 [⟨1, [0, 0, 0, 0]⟩] [0] =
      some (Except.error ProgramError.IncorrectProgramId,
            [⟨1, [0, 0, 0, 0]⟩]) :=
  owner_mismatch_rejected 0 ⟨1, [0, 0, 0, 0]⟩ [] [0]
    HelloInstruction.Increment rfl (by decide)

/-- C3: decoding tag 2 with exactly four payload bytes yields
`Set` of their little-endian `u32` value, for every byte quadruple; and
tag 2 with a payload of any other length (0 included) is
`InvalidInstructionData`. -/
theorem set_decode_exact (rest : List Nat) (h : rest.length ≠ 4) :
    (∀ b0 b1 b2 b3 : Nat,
      unpack [2, b0, b1, b2, b3] =
        some (Except.ok (HelloInstruction.Set (u32FromLeBytes b0 b1 b2 b3)))) ∧
    unpack (2 :: rest) =
      some (Except.error ProgramError.InvalidInstructionData) := by
  constructor
  · intro b0 b1 b2 b3
    rfl
  · simp [unpack, h]

/-- Witness for C3 at the empty payload. -/
theorem set_decode_exact_witness :
    unpack [2] = some (Except.error ProgramError.InvalidInstructionData) :=
  (set_decode_exact [] (by decide)).2

/-- C4: decoding the empty byte sequence is `InvalidInstructionData`, and
so is any input whose tag byte is outside {0, 1, 2}, whatever the
payload. -/
theorem invalid_tag_rejected (t : Nat) (payload : List Nat)
    (h0 : t ≠ 0) (h1 : t ≠ 1) (h2 : t ≠ 2) :
    unpack [] = some (Except.error ProgramError.InvalidInstructionData) ∧
    unpack (t :: payload) =
      some (Except.error ProgramError.InvalidInstructionData) := by
  refine ⟨rfl, ?_⟩
  rcases t with _ | _ | _ | n
  · exact absurd rfl h0
  · exact absurd rfl h1
  · exact absurd rfl h2
  · rfl

/-- Witness for C4 at tag 3 with empty payload. -/
theorem invalid_tag_rejected_witness :
    unpack [] = some (Except.error ProgramError.InvalidInstructionData) ∧
    unpack [3] = some (Except.error ProgramError.InvalidInstructionData) :=
  invalid_tag_rejected 3 [] (by decide) (by decide) (by decide)

/-- C5: for every list of trailing bytes, tag 0 decodes to `Increment`
and tag 1 decodes to `Decrement`; the trailing bytes are ignored and
never cause an error. -/
theorem trailing_bytes_ignored (trailing : List Nat) :
    unpack (0 :: trailing) = some (Except.ok HelloInstruction.Increment) ∧
    unpack (1 :: trailing) = some (Except.ok HelloInstruction.Decrement) :=
  ⟨rfl, rfl⟩

/-- C6: applying `Set v` yields counter value exactly `v`, regardless of
the prior counter value. -/
theorem set_unconditional (R v : Nat) :
    applyInstruction R (HelloInstruction.Set v) = v := rfl

/-- C7: the invocation steps run in the order decode, authorize, apply,
serialize, and every error is terminal.  First conjunct: when decoding
fails, its error is the one returned — whatever the accounts and their
owners are, so the decode step precedes the ownership check — and the
accounts are untouched.  Second conjunct: whenever the invocation ends in
any error, the post-invocation accounts equal the pre-invocation ones, so
no storage mutation happens past the point of an error.  (That the
ownership check precedes apply and serialize is the content of
the C2 theorem, whose conclusion also returns the accounts unchanged.) -/
theorem invocation_error_terminal (pid : Nat) (accounts : List AccountInfo)
    (instruction_data : List Nat) :
    (∀ e, unpack instruction_data = some (Except.error e) →
      process_instruction pid accounts instruction_data =
        some (Except.error e, accounts)) ∧
    (∀ e post, process_instruction pid accounts instruction_data =
        some (Except.error e, post) → post = accounts) := by
  constructor
  · intro e hdec
    simp [process_instruction, hdec]
  · intro e post hrun
    rw [process_instruction] at hrun
    rcases hu : unpack instruction_data with _ | (e2 | instr) <;> rw [hu] at hrun
    · exact Option.noConfusion hrun
    · simp_all
    · rcases accounts with _ | ⟨account, rest⟩
      · simp_all
      · by_cases hown : account.owner = pid
        · simp only [hown, ne_eq, not_true_eq_false, if_false, ite_false] at hrun
          rcases hds : tryFromSlice account.data with e3 | counter <;>
            rw [hds] at hrun <;> simp at hrun
          · simp_all
          · rcases hs : serializeInto (applyInstruction counter instr) account.data
              with e4 | newData <;> rw [hs] at hrun <;> simp_all
        · simp only [hown, ne_eq] at hrun
          simp_all

/-- Witness for C7: malformed instruction bytes `[5]` against an account
whose owner mismatches the program id still yield the decode error, with
the account unchanged; and the error leaves the accounts unchanged. -/
theorem invocation_error_terminal_witness :
    process_instruction 0 [⟨1, [0, 0, 0, 0]⟩] [5] =
      some (Except.error ProgramError.InvalidInstructionData,
            [⟨1, [0, 0, 0, 0]⟩]) ∧
    [(⟨1, [0, 0, 0, 0]⟩ : AccountInfo)] = [⟨1, [0, 0, 0, 0]⟩] :=
  ⟨(invocation_error_terminal 0 [⟨1, [0, 0, 0, 0]⟩] [5]).1
      ProgramError.InvalidInstructionData rfl,
   (invocation_error_terminal 0 [⟨1, [0, 0, 0, 0]⟩] [5]).2
      ProgramError.InvalidInstructionData [⟨1, [0, 0, 0, 0]⟩] rfl⟩

/-- C8: end-to-end scenario on a correctly owned account starting at
counter 0: instruction bytes [0], [0], [2, 0x0A, 0, 0, 0], [1] leave the
stored counter at 1, then 2, then 10, then 9. -/
theorem end_to_end_scenario :
    process_instruction 7 [⟨7, [0, 0, 0, 0]⟩] [0] =
      some (Except.ok (), [⟨7, [1, 0, 0, 0]⟩]) ∧
    process_instruction 7 [⟨7, [1, 0, 0, 0]⟩] [0] =
      some (Except.ok (), [⟨7, [2, 0, 0, 0]⟩]) ∧
    process_instruction 7 [⟨7, [2, 0, 0, 0]⟩] [2, 10, 0, 0, 0] =
      some (Except.ok (), [⟨7, [10, 0, 0, 0]⟩]) ∧
    process_instruction 7 [⟨7, [10, 0, 0, 0]⟩] [1] =
      some (Except.ok (), [⟨7, [9, 0, 0, 0]⟩]) := by
  refine ⟨rfl, rfl, rfl, rfl⟩

/-- C9: `unpack` is total — it never panics on any input (the `Option`
layer that models a panic is always `some`), because the `rest[..4]`
slice is only taken under the `rest.len() == 4` guard; and under that
guard the `try_into` conversion to a four-byte array always succeeds, so
the inner conversion-failure branch is unreachable. -/
theorem unpack_total_no_panic (input quad : List Nat)
    (h : quad.length = 4) :
    (unpack input).isSome = true ∧ (tryIntoArray4 quad).isSome = true := by
  constructor
  · match input with
    | [] => rfl
    | 0 :: rest => rfl
    | 1 :: rest => rfl
    | 2 :: rest =>
      by_cases hlen : rest.length = 4
      · match rest, hlen with
        | [a, b, c, d], _ => rfl
      · simp [unpack, hlen]
    | (n + 3) :: rest => rfl
  · match quad, h with
    | [a, b, c, d], _ => rfl

/-- Witness for C9 at input [2, 9, 9] and quadruple [1, 2, 3, 4]. -/
theorem unpack_total_no_panic_witness :
    (unpack [2, 9, 9]).isSome = true ∧
    (tryIntoArray4 [1, 2, 3, 4]).isSome = true :=
  unpack_total_no_panic [2, 9, 9] [1, 2, 3, 4] rfl

/-- C10: with a valid instruction but an empty accounts list, the
invocation fails with `NotEnoughAccountKeys` and performs no storage
write (the account list, empty, is returned unchanged); the first
conjunct shows the missing-account failure is reported from the account
fetch itself — the ownership check is never reached — and the second
shows decoding still happens first: a decode error preempts the
missing-account error. -/
theorem empty_accounts_rejected (pid : Nat) (instruction_data : List Nat) :
    (∀ i, unpack instruction_data = some (Except.ok i) →
      process_instruction pid [] instruction_data =
        some (Except.error ProgramError.NotEnoughAccountKeys, [])) ∧
    (∀ e, unpack instruction_data = some (Except.error e) →
      process_instruction pid [] instruction_data =
        some (Except.error e, [])) := by
  constructor
  · intro i hdec
    simp [process_instruction, hdec]
  · intro e hdec
    simp [process_instruction, hdec]

/-- Witness for C10 with the valid Increment instruction `[0]`. -/
theorem empty_accounts_rejected_witness :
    process_instruction 0 [] [0] =
      some (Except.error ProgramError.NotEnoughAccountKeys, []) :=
  (empty_accounts_rejected 0 [0]).1 HelloInstruction.Increment rfl

end HelloWorld
